import Mathlib

/-!
Verification of libgreat `firmware/include/toolchain.h`.

A shallow embedding of the helper header: the two bit utilities
(`size_to_order`, `is_binary_sized`), the `MIN` statement-expression macro,
the four linker-section registration macros and `ASSERT_OFFSET`.

Conventions.
* `uint32_t` values are natural numbers below `2 ^ 32`; the bound is a
  hypothesis of the theorems that need it.
* `unsigned long` is the 32-bit type of the firmware's ARM ILP32 target.
* `__builtin_clz` is a compiler builtin whose result on `0` is undefined; the
  value it yields there is the explicit parameter `clz0`.
* Macros are modelled by what their expansion does: `MIN` as sequenced
  evaluation of two state-passing expressions, the registration macros as
  token substitution followed by reading the resulting declaration, and
  `ASSERT_OFFSET` as the items its expansion adds to a translation unit and
  the outcome of compiling that unit.
-/

namespace Toolchain

/-! ## Bit utilities (`toolchain.h` lines 98-112) -/

/-- Scan of the bits `i - 1, i - 2, ..., 0` of `x` from the top: the number of
zero bits met before the first set bit (`i` when there is none). -/
def clz_scan (x : Nat) : Nat → Nat
  | 0 => 0
  | i + 1 => if x.testBit i then 0 else 1 + clz_scan x i

/-- The builtin `__builtin_clz` on a 32-bit `unsigned int`: the number of
leading zero bits of `x`, starting at bit 31. The result for `x = 0` is
undefined in C; `clz0` stands for whatever the target yields there. -/
def builtin_clz (clz0 : Int) (x : Nat) : Int :=
  if x = 0 then clz0 else (clz_scan x 32 : Nat)

/-- Function `static inline uint8_t size_to_order(uint32_t size)`:
`return 31 - __builtin_clz(size);` with the `int` result converted to the
`uint8_t` return type, that is, reduced modulo `2 ^ 8`. -/
def size_to_order (clz0 : Int) (size : Nat) : Nat :=
  ((31 - builtin_clz clz0 size) % 256).toNat

/-- Left shift on the 32-bit `unsigned long`: the shifted value reduced modulo
`2 ^ 32`. -/
def shl_ulong (v k : Nat) : Nat :=
  (v <<< k) % 2 ^ 32

/-- Function `static inline bool is_binary_sized(uint32_t size)`:
`return (size == (1UL << size_to_order(size)));`. -/
def is_binary_sized (clz0 : Int) (size : Nat) : Bool :=
  decide (size = shl_ulong 1 (size_to_order clz0 size))

/-! ## `MIN` (`toolchain.h` lines 92-95) -/

/-- The selection `_a < _b ? _a : _b` on the two evaluated temporaries. -/
def MIN {α : Type} [LT α] [DecidableRel (fun (x y : α) => x < y)] (a b : α) : α :=
  if a < b then a else b

/-- Preprocessing tokens of an expansion: identifiers and keywords,
punctuators, and string literals (without their quotes). -/
inductive Tok where
  | ident (s : String)
  | sym (s : String)
  | str (s : String)
  deriving DecidableEq, Repr

/-- Items of a macro replacement list: a plain token, or `l ## r`. -/
inductive BodyTok where
  | tok (t : Tok)
  | paste (l r : String)
  deriving DecidableEq, Repr

/-- A function-like macro of one parameter. -/
structure MacroDef where
  param : String
  body : List BodyTok
  deriving Repr

/-- Identifier token of a replacement list. -/
def bi (s : String) : BodyTok := BodyTok.tok (Tok.ident s)

/-- Punctuator token of a replacement list. -/
def bp (s : String) : BodyTok := BodyTok.tok (Tok.sym s)

/-- String-literal token of a replacement list. -/
def bs (s : String) : BodyTok := BodyTok.tok (Tok.str s)

/-- Parameter substitution on one identifier: the parameter is replaced by
the argument, every other identifier is left alone. -/
def substIdent (param arg s : String) : String :=
  if s = param then arg else s

/-- Expansion of one item of the replacement list. -/
def expandTok (param arg : String) : BodyTok → Tok
  | BodyTok.tok (Tok.ident s) => Tok.ident (substIdent param arg s)
  | BodyTok.tok t => t
  | BodyTok.paste l r => Tok.ident (substIdent param arg l ++ substIdent param arg r)

/-- Expansion of the macro invocation `m(arg)`. -/
def expand (m : MacroDef) (arg : String) : List Tok :=
  m.body.map (expandTok m.param arg)

/-- Definition `#define CALL_ON_PREINIT(preinit)`
`__attribute__((section(".preinit_array"), used)) static typeof(preinit) *preinit##_initcall_p = preinit;` -/
def CALL_ON_PREINIT : MacroDef where
  param := "preinit"
  body := [bi "__attribute__", bp "(", bp "(", bi "section", bp "(", bs ".preinit_array", bp ")",
    bp ",", bi "used", bp ")", bp ")", bi "static", bi "typeof", bp "(", bi "preinit", bp ")",
    bp "*", BodyTok.paste "preinit" "_initcall_p", bp "=", bi "preinit", bp ";"]

/-- Definition `#define CALL_ON_INIT(init)`
`__attribute__((section(".init_array"), used)) static typeof(init) *init##_initcall_p = init;` -/
def CALL_ON_INIT : MacroDef where
  param := "init"
  body := [bi "__attribute__", bp "(", bp "(", bi "section", bp "(", bs ".init_array", bp ")",
    bp ",", bi "used", bp ")", bp ")", bi "static", bi "typeof", bp "(", bi "init", bp ")",
    bp "*", BodyTok.paste "init" "_initcall_p", bp "=", bi "init", bp ";"]

/-- Definition `#define CALL_BEFORE_RESET(fini)`
`__attribute__((section(".fini_array"), used)) static typeof(init) *fini##_finalizer_p = fini;` -/
def CALL_BEFORE_RESET : MacroDef where
  param := "fini"
  body := [bi "__attribute__", bp "(", bp "(", bi "section", bp "(", bs ".fini_array", bp ")",
    bp ",", bi "used", bp ")", bp ")", bi "static", bi "typeof", bp "(", bi "init", bp ")",
    bp "*", BodyTok.paste "fini" "_finalizer_p", bp "=", bi "fini", bp ";"]

/-- Definition `#define DEFINE_TASK(task)`
`__attribute__((section(".task_array"), used)) static typeof(task) *task##_implementation_p = task;` -/
def DEFINE_TASK : MacroDef where
  param := "task"
  body := [bi "__attribute__", bp "(", bp "(", bi "section", bp "(", bs ".task_array", bp ")",
    bp ",", bi "used", bp ")", bp ")", bi "static", bi "typeof", bp "(", bi "task", bp ")",
    bp "*", BodyTok.paste "task" "_implementation_p", bp "=", bi "task", bp ";"]

/-- A declaration of the shape
`__attribute__((section("S"), A)) static typeof(T) *N = V;`. -/
structure PtrDecl where
  section_name : String
  second_attr : String
  typeof_operand : String
  name : String
  init_value : String
  deriving DecidableEq, Repr

/-- Consumes the token `t` at the head of the input. -/
def expect (t : Tok) : List Tok → Option (List Tok)
  | x :: rest => if x = t then some rest else none
  | [] => none

/-- Consumes an identifier at the head of the input. -/
def takeIdent : List Tok → Option (String × List Tok)
  | Tok.ident s :: rest => some (s, rest)
  | _ => none

/-- Consumes a string literal at the head of the input. -/
def takeStr : List Tok → Option (String × List Tok)
  | Tok.str s :: rest => some (s, rest)
  | _ => none

/-- Consumes the tokens `pat`, in order, at the head of the input. -/
def expectAll : List Tok → List Tok → Option (List Tok)
  | [], ts => some ts
  | t :: more, ts => (expect t ts).bind (expectAll more)

/-- Reading of an expansion as a pointer declaration; `none` when the tokens
do not have that shape. -/
def parseDecl (ts0 : List Tok) : Option PtrDecl :=
  (expectAll [Tok.ident "__attribute__", Tok.sym "(", Tok.sym "(", Tok.ident "section",
    Tok.sym "("] ts0).bind fun ts1 =>
  (takeStr ts1).bind fun r1 =>
  (expectAll [Tok.sym ")", Tok.sym ","] r1.2).bind fun ts2 =>
  (takeIdent ts2).bind fun r2 =>
  (expectAll [Tok.sym ")", Tok.sym ")", Tok.ident "static", Tok.ident "typeof",
    Tok.sym "("] r2.2).bind fun ts3 =>
  (takeIdent ts3).bind fun r3 =>
  (expectAll [Tok.sym ")", Tok.sym "*"] r3.2).bind fun ts4 =>
  (takeIdent ts4).bind fun r4 =>
  (expectAll [Tok.sym "="] r4.2).bind fun ts5 =>
  (takeIdent ts5).bind fun r5 =>
  (expectAll [Tok.sym ";"] r5.2).bind fun ts6 =>
  if ts6 = [] then some ⟨r1.1, r2.1, r3.1, r4.1, r5.1⟩ else none

/-- The declaration carries the retention attribute `used`. -/
def PtrDecl.used (d : PtrDecl) : Bool :=
  d.second_attr == "used"

/-- The type pointed to by the declared variable, `typeof(T)`, in a scope `Γ`
giving the type of each declared identifier (`none`: not declared). -/
def PtrDecl.pointee {τ : Type} (Γ : String → Option τ) (d : PtrDecl) : Option τ :=
  Γ d.typeof_operand

/-- The declaration produced by the invocation `m(f)`. -/
def declare (m : MacroDef) (f : String) : Option PtrDecl :=
  parseDecl (expand m f)

/-! ## `ASSERT_OFFSET` (`toolchain.h` lines 57-69) -/

/-- A scope declaring `void shutdown(void)` and `int init(int)`. -/
def scope_example (x : String) : Option String :=
  if x = "shutdown" then some "void (void)"
  else if x = "init" then some "int (int)"
  else none

theorem lt_two_pow_of_testBit_false {x n : Nat} (h1 : x < 2 ^ (n + 1))
    (hb : x.testBit n = false) : x < 2 ^ n := by
  apply Nat.lt_pow_two_of_testBit
  intro i hi
  rcases Nat.eq_or_lt_of_le hi with h | h
  · rw [← h]; exact hb
  · exact Nat.testBit_lt_two_pow (lt_of_lt_of_le h1 (Nat.pow_le_pow_right (by decide) h))

theorem clz_scan_spec (n : Nat) : ∀ x, 0 < x → x < 2 ^ n →
    clz_scan x n < n ∧ 2 ^ (n - 1 - clz_scan x n) ≤ x ∧ x < 2 ^ (n - clz_scan x n) := by
  induction n with
  | zero => intro x h0 h1; simp at h1; omega
  | succ n ih =>
    intro x h0 h1
    by_cases hb : x.testBit n = true
    · have h2 : 2 ^ n ≤ x := Nat.testBit_implies_ge hb
      simp [clz_scan, hb]
      exact ⟨h2, h1⟩
    · have hb2 : x.testBit n = false := by simpa using hb
      have h2 : x < 2 ^ n := lt_two_pow_of_testBit_false h1 hb2
      obtain ⟨a, b, c⟩ := ih x h0 h2
      have e1 : n + 1 - 1 - (1 + clz_scan x n) = n - 1 - clz_scan x n := by omega
      have e2 : n + 1 - (1 + clz_scan x n) = n - clz_scan x n := by omega
      simp only [clz_scan, hb2, Bool.false_eq_true, if_false, e1, e2]
      exact ⟨by omega, b, c⟩

theorem builtin_clz_nonzero (clz0 : Int) (size : Nat) (h0 : 0 < size) :
    builtin_clz clz0 size = (clz_scan size 32 : Nat) := by
  unfold builtin_clz
  rw [if_neg (by omega)]

theorem size_to_order_eq (clz0 : Int) (size : Nat) (h0 : 0 < size) (h1 : size < 2 ^ 32) :
    size_to_order clz0 size = 31 - clz_scan size 32 := by
  have h := (clz_scan_spec 32 size h0 h1).1
  unfold size_to_order
  rw [builtin_clz_nonzero clz0 size h0]
  omega

theorem size_to_order_bounds (clz0 : Int) (size : Nat) (h0 : 0 < size) (h1 : size < 2 ^ 32) :
    size_to_order clz0 size ≤ 31 ∧ 2 ^ size_to_order clz0 size ≤ size ∧
      size < 2 ^ (size_to_order clz0 size + 1) := by
  obtain ⟨a, b, c⟩ := clz_scan_spec 32 size h0 h1
  rw [size_to_order_eq clz0 size h0 h1]
  have e : 31 - clz_scan size 32 + 1 = 32 - clz_scan size 32 := by omega
  rw [e]
  exact ⟨by omega, b, c⟩


theorem shl_ulong_one (k : Nat) (hk : k ≤ 31) : shl_ulong 1 k = 2 ^ k := by
  unfold shl_ulong
  rw [Nat.shiftLeft_eq, Nat.one_mul]
  apply Nat.mod_eq_of_lt
  exact Nat.pow_lt_pow_right (by decide) (by omega)

theorem size_to_order_unique (clz0 : Int) (size k : Nat) (h1 : size < 2 ^ 32)
    (hk : size = 2 ^ k) : size_to_order clz0 size = k := by
  have h0 : 0 < size := by rw [hk]; exact Nat.pos_pow_of_pos k (by decide)
  obtain ⟨_, b, c⟩ := size_to_order_bounds clz0 size h0 h1
  generalize size_to_order clz0 size = o at b c ⊢
  rw [hk] at b c
  have b2 : o ≤ k := (Nat.pow_le_pow_iff_right (by decide : 1 < 2)).1 b
  have c2 : k < o + 1 := (Nat.pow_lt_pow_iff_right (by decide : 1 < 2)).1 c
  omega

theorem size_to_order_pow (clz0 : Int) (k : Nat) (hk : k ≤ 31) :
    size_to_order clz0 (2 ^ k) = k :=
  size_to_order_unique clz0 (2 ^ k) k
    (Nat.pow_lt_pow_right (by decide) (by omega)) rfl

theorem is_binary_sized_eq (clz0 : Int) (size : Nat) (h0 : 0 < size) (h1 : size < 2 ^ 32) :
    is_binary_sized clz0 size = decide (size = 2 ^ size_to_order clz0 size) := by
  unfold is_binary_sized
  rw [shl_ulong_one _ (size_to_order_bounds clz0 size h0 h1).1]

/-! ## Lemmas on the registration macros -/

theorem expectAll_nil (ts : List Tok) : expectAll [] ts = some ts := rfl

theorem expectAll_cons_self (t : Tok) (more ts : List Tok) :
    expectAll (t :: more) (t :: ts) = expectAll more ts := by
  simp [expectAll, expect]

theorem takeIdent_cons (s : String) (ts : List Tok) :
    takeIdent (Tok.ident s :: ts) = some (s, ts) := rfl

theorem takeStr_cons (s : String) (ts : List Tok) :
    takeStr (Tok.str s :: ts) = some (s, ts) := rfl

theorem parseDecl_shape (s a t n v : String) :
    parseDecl [Tok.ident "__attribute__", Tok.sym "(", Tok.sym "(", Tok.ident "section",
      Tok.sym "(", Tok.str s, Tok.sym ")", Tok.sym ",", Tok.ident a, Tok.sym ")", Tok.sym ")",
      Tok.ident "static", Tok.ident "typeof", Tok.sym "(", Tok.ident t, Tok.sym ")", Tok.sym "*",
      Tok.ident n, Tok.sym "=", Tok.ident v, Tok.sym ";"] = some ⟨s, a, t, n, v⟩ := by
  simp only [parseDecl, expectAll_cons_self, expectAll_nil, takeIdent_cons, takeStr_cons,
    Option.some_bind, if_true]

theorem declare_CALL_ON_PREINIT (f : String) :
    declare CALL_ON_PREINIT f =
      some ⟨".preinit_array", "used", f, f ++ "_initcall_p", f⟩ := by
  have h : expand CALL_ON_PREINIT f = [Tok.ident "__attribute__", Tok.sym "(", Tok.sym "(",
      Tok.ident "section", Tok.sym "(", Tok.str ".preinit_array", Tok.sym ")", Tok.sym ",",
      Tok.ident "used", Tok.sym ")", Tok.sym ")", Tok.ident "static", Tok.ident "typeof",
      Tok.sym "(", Tok.ident f, Tok.sym ")", Tok.sym "*", Tok.ident (f ++ "_initcall_p"),
      Tok.sym "=", Tok.ident f, Tok.sym ";"] := by
    simp [expand, CALL_ON_PREINIT, expandTok, substIdent, bi, bp, bs]
  rw [declare, h, parseDecl_shape]

theorem declare_CALL_ON_INIT (f : String) :
    declare CALL_ON_INIT f =
      some ⟨".init_array", "used", f, f ++ "_initcall_p", f⟩ := by
  have h : expand CALL_ON_INIT f = [Tok.ident "__attribute__", Tok.sym "(", Tok.sym "(",
      Tok.ident "section", Tok.sym "(", Tok.str ".init_array", Tok.sym ")", Tok.sym ",",
      Tok.ident "used", Tok.sym ")", Tok.sym ")", Tok.ident "static", Tok.ident "typeof",
      Tok.sym "(", Tok.ident f, Tok.sym ")", Tok.sym "*", Tok.ident (f ++ "_initcall_p"),
      Tok.sym "=", Tok.ident f, Tok.sym ";"] := by
    simp [expand, CALL_ON_INIT, expandTok, substIdent, bi, bp, bs]
  rw [declare, h, parseDecl_shape]

theorem declare_CALL_BEFORE_RESET (f : String) :
    declare CALL_BEFORE_RESET f =
      some ⟨".fini_array", "used", "init", f ++ "_finalizer_p", f⟩ := by
  have h : expand CALL_BEFORE_RESET f = [Tok.ident "__attribute__", Tok.sym "(", Tok.sym "(",
      Tok.ident "section", Tok.sym "(", Tok.str ".fini_array", Tok.sym ")", Tok.sym ",",
      Tok.ident "used", Tok.sym ")", Tok.sym ")", Tok.ident "static", Tok.ident "typeof",
      Tok.sym "(", Tok.ident "init", Tok.sym ")", Tok.sym "*", Tok.ident (f ++ "_finalizer_p"),
      Tok.sym "=", Tok.ident f, Tok.sym ";"] := by
    simp [expand, CALL_BEFORE_RESET, expandTok, substIdent, bi, bp, bs]
  rw [declare, h, parseDecl_shape]

theorem declare_DEFINE_TASK (f : String) :
    declare DEFINE_TASK f =
      some ⟨".task_array", "used", f, f ++ "_implementation_p", f⟩ := by
  have h : expand DEFINE_TASK f = [Tok.ident "__attribute__", Tok.sym "(", Tok.sym "(",
      Tok.ident "section", Tok.sym "(", Tok.str ".task_array", Tok.sym ")", Tok.sym ",",
      Tok.ident "used", Tok.sym ")", Tok.sym ")", Tok.ident "static", Tok.ident "typeof",
      Tok.sym "(", Tok.ident f, Tok.sym ")", Tok.sym "*", Tok.ident (f ++ "_implementation_p"),
      Tok.sym "=", Tok.ident f, Tok.sym ";"] := by
    simp [expand, DEFINE_TASK, expandTok, substIdent, bi, bp, bs]
  rw [declare, h, parseDecl_shape]

/-- The three registration macros other than `CALL_BEFORE_RESET` take the
pointee type from their own argument and initialise the pointer with it, in
every scope `Γ`. -/
theorem registration_typeof_own_argument {τ : Type} (Γ : String → Option τ) (f : String) :
    ((declare CALL_ON_PREINIT f).bind (PtrDecl.pointee Γ) = Γ f ∧
      (declare CALL_ON_PREINIT f).map PtrDecl.init_value = some f) ∧
    ((declare CALL_ON_INIT f).bind (PtrDecl.pointee Γ) = Γ f ∧
      (declare CALL_ON_INIT f).map PtrDecl.init_value = some f) ∧
    ((declare DEFINE_TASK f).bind (PtrDecl.pointee Γ) = Γ f ∧
      (declare DEFINE_TASK f).map PtrDecl.init_value = some f) := by
  rw [declare_CALL_ON_PREINIT, declare_CALL_ON_INIT, declare_DEFINE_TASK]
  simp [PtrDecl.pointee]

/-! ## Properties of the header -/

/-- C1: for every `n = 2 ^ k` with `0 ≤ k ≤ 31`, `size_to_order(n)` returns
exactly `k`, so `2 ^ size_to_order(n) = n`; in particular
`size_to_order(1) = 0` and `size_to_order(1024) = 10`. This holds whatever
`__builtin_clz` yields on zero. -/
theorem size_to_order_power_of_two (clz0 : Int) (k : Nat) (hk : k ≤ 31) :
    size_to_order clz0 (2 ^ k) = k ∧ 2 ^ size_to_order clz0 (2 ^ k) = 2 ^ k ∧
      size_to_order clz0 1 = 0 ∧ size_to_order clz0 1024 = 10 := by
  refine ⟨size_to_order_pow clz0 k hk, ?_, ?_, ?_⟩
  · rw [size_to_order_pow clz0 k hk]
  · exact size_to_order_pow clz0 0 (by decide)
  · exact size_to_order_pow clz0 10 (by decide)

theorem size_to_order_power_of_two_witness :
    5 ≤ 31 ∧ size_to_order 0 (2 ^ 5) = 5 ∧ 2 ^ size_to_order 0 (2 ^ 5) = 2 ^ 5 ∧
      size_to_order 0 1 = 0 ∧ size_to_order 0 1024 = 10 :=
  ⟨by decide, size_to_order_power_of_two 0 5 (by decide)⟩

/-- C2: for every positive 32-bit `n`, `is_binary_sized(n)` is true if and
only if `n` is an exact power of two: true for every `2 ^ k` with `k ≤ 31`,
false for every positive `n` that is no power of two; true for 1024, false
for 1023 and 1025. -/
theorem is_binary_sized_iff_power_of_two (clz0 : Int) (n : Nat) (h0 : 0 < n)
    (h1 : n < 2 ^ 32) :
    (is_binary_sized clz0 n = true ↔ ∃ k, n = 2 ^ k) ∧
      (is_binary_sized clz0 n = true ↔ ∃ k, k ≤ 31 ∧ n = 2 ^ k) ∧
      (is_binary_sized clz0 n = false ↔ ∀ k, n ≠ 2 ^ k) ∧
      is_binary_sized clz0 1024 = true ∧ is_binary_sized clz0 1023 = false ∧
      is_binary_sized clz0 1025 = false := by
  have key : ∀ m, 0 < m → m < 2 ^ 32 → (is_binary_sized clz0 m = true ↔ ∃ k, m = 2 ^ k) := by
    intro m hm0 hm1
    rw [is_binary_sized_eq clz0 m hm0 hm1, decide_eq_true_iff]
    constructor
    · intro h; exact ⟨_, h⟩
    · rintro ⟨k, hk⟩
      rw [size_to_order_unique clz0 m k hm1 hk]; exact hk
  have not_pow : ∀ m, 0 < m → m < 2 ^ 32 → (∀ k, k ≤ 31 → m ≠ 2 ^ k) →
      is_binary_sized clz0 m = false := by
    intro m hm0 hm1 hne
    rw [← Bool.not_eq_true, key m hm0 hm1]
    rintro ⟨k, hk⟩
    have hk31 : k ≤ 31 := by
      rw [hk] at hm1
      have := (Nat.pow_lt_pow_iff_right (by decide : 1 < 2)).1 hm1
      omega
    exact hne k hk31 hk
  refine ⟨key n h0 h1, ?_, ?_, ?_, ?_, ?_⟩
  · rw [key n h0 h1]
    constructor
    · rintro ⟨k, hk⟩
      refine ⟨k, ?_, hk⟩
      rw [hk] at h1
      have := (Nat.pow_lt_pow_iff_right (by decide : 1 < 2)).1 h1
      omega
    · rintro ⟨k, _, hk⟩; exact ⟨k, hk⟩
  · rw [← Bool.not_eq_true, key n h0 h1]
    constructor
    · intro h k hk; exact h ⟨k, hk⟩
    · rintro h ⟨k, hk⟩; exact h k hk
  · exact (key 1024 (by decide) (by decide)).2 ⟨10, by decide⟩
  · apply not_pow 1023 (by decide) (by decide)
    intro k hk
    interval_cases k <;> decide
  · apply not_pow 1025 (by decide) (by decide)
    intro k hk
    interval_cases k <;> decide

theorem is_binary_sized_iff_power_of_two_witness :
    0 < 4096 ∧ 4096 < 2 ^ 32 ∧
      ((is_binary_sized 0 4096 = true ↔ ∃ k, 4096 = 2 ^ k) ∧
      (is_binary_sized 0 4096 = true ↔ ∃ k, k ≤ 31 ∧ 4096 = 2 ^ k) ∧
      (is_binary_sized 0 4096 = false ↔ ∀ k, 4096 ≠ 2 ^ k) ∧
      is_binary_sized 0 1024 = true ∧ is_binary_sized 0 1023 = false ∧
      is_binary_sized 0 1025 = false) :=
  ⟨by decide, by decide, is_binary_sized_iff_power_of_two 0 4096 (by decide) (by decide)⟩

/-- C3: for every non-zero 32-bit `size`, `size_to_order(size)` equals 31
minus the number of leading zero bits of `size`, and that value is the
position of the highest set bit: bit `size_to_order(size)` is set and no higher
bit is, `2 ^ size_to_order(size) ≤ size < 2 ^ (size_to_order(size) + 1)`, that
is, `size_to_order(size)` is the floor of the base-2 logarithm of `size`. -/
theorem size_to_order_highest_set_bit (clz0 : Int) (size : Nat) (h0 : 0 < size)
    (h1 : size < 2 ^ 32) :
    (size_to_order clz0 size : Int) = 31 - builtin_clz clz0 size ∧
      builtin_clz clz0 size = (clz_scan size 32 : Nat) ∧
      size.testBit (size_to_order clz0 size) = true ∧
      (∀ i, size_to_order clz0 size < i → size.testBit i = false) ∧
      2 ^ size_to_order clz0 size ≤ size ∧
      size < 2 ^ (size_to_order clz0 size + 1) ∧
      size_to_order clz0 size = Nat.log 2 size := by
  obtain ⟨a, b, c⟩ := size_to_order_bounds clz0 size h0 h1
  have hs := (clz_scan_spec 32 size h0 h1).1
  refine ⟨?_, builtin_clz_nonzero clz0 size h0, ?_, ?_, b, c, ?_⟩
  · rw [builtin_clz_nonzero clz0 size h0, size_to_order_eq clz0 size h0 h1]
    omega
  · by_contra hb
    have hb2 : size.testBit (size_to_order clz0 size) = false := by simpa using hb
    have := lt_two_pow_of_testBit_false c hb2
    omega
  · intro i hi
    apply Nat.testBit_lt_two_pow
    exact lt_of_lt_of_le c (Nat.pow_le_pow_right (by decide) (by omega))
  · symm
    exact (Nat.log_eq_iff (Or.inr ⟨by decide, by omega⟩)).2 ⟨b, c⟩

theorem size_to_order_highest_set_bit_witness :
    0 < 1000 ∧ 1000 < 2 ^ 32 ∧
      ((size_to_order 0 1000 : Int) = 31 - builtin_clz 0 1000 ∧
      builtin_clz 0 1000 = (clz_scan 1000 32 : Nat) ∧
      (1000).testBit (size_to_order 0 1000) = true ∧
      (∀ i, size_to_order 0 1000 < i → (1000).testBit i = false) ∧
      2 ^ size_to_order 0 1000 ≤ 1000 ∧
      1000 < 2 ^ (size_to_order 0 1000 + 1) ∧
      size_to_order 0 1000 = Nat.log 2 1000) :=
  ⟨by decide, by decide, size_to_order_highest_set_bit 0 1000 (by decide) (by decide)⟩

/-- C4: `is_binary_sized(0)` is not guaranteed to return false. Its result
depends on the value the leading-zero count yields on a zero word: it is true
exactly when the wrapped 8-bit order is 32 or more, so it is true when the
count is 32 (the order wraps to 255 and the shifted 1 leaves the 32-bit word)
and false when the count is 31. -/
theorem is_binary_sized_zero_depends_on_clz :
    is_binary_sized 32 0 = true ∧ size_to_order 32 0 = 255 ∧ shl_ulong 1 255 = 0 ∧
      is_binary_sized 31 0 = false ∧
      (∀ clz0 : Int, is_binary_sized clz0 0 = true ↔ 32 ≤ size_to_order clz0 0) := by
  refine ⟨by decide, by decide, by decide, by decide, ?_⟩
  intro clz0
  unfold is_binary_sized shl_ulong
  rw [decide_eq_true_iff, Nat.shiftLeft_eq, Nat.one_mul]
  generalize size_to_order clz0 0 = o
  constructor
  · intro h
    by_contra hlt
    have h2 : 2 ^ o < 2 ^ 32 := Nat.pow_lt_pow_right (by decide) (by omega)
    rw [Nat.mod_eq_of_lt h2] at h
    have := Nat.pos_pow_of_pos o (by decide : 0 < 2)
    omega
  · intro h
    have hd : 2 ^ 32 ∣ 2 ^ o := Nat.pow_dvd_pow 2 h
    exact (Nat.mod_eq_zero_of_dvd hd).symm

/-- C10: for every non-zero 32-bit `size`, the `int` value `31 - clz(size)`
lies in `0..31`, so its conversion to `uint8_t` loses nothing, and the shift
amount in `1UL << size_to_order(size)` is below 32, so the shift does not
leave the 32-bit word. -/
theorem size_to_order_in_range (clz0 : Int) (size : Nat) (h0 : 0 < size)
    (h1 : size < 2 ^ 32) :
    0 ≤ 31 - builtin_clz clz0 size ∧ 31 - builtin_clz clz0 size ≤ 31 ∧
      (31 - builtin_clz clz0 size) % 256 = 31 - builtin_clz clz0 size ∧
      (size_to_order clz0 size : Int) = 31 - builtin_clz clz0 size ∧
      size_to_order clz0 size < 32 ∧
      1 <<< size_to_order clz0 size < 2 ^ 32 ∧
      shl_ulong 1 (size_to_order clz0 size) = 1 <<< size_to_order clz0 size := by
  have hs := (clz_scan_spec 32 size h0 h1).1
  have ho := (size_to_order_bounds clz0 size h0 h1).1
  have hlt : 1 <<< size_to_order clz0 size < 2 ^ 32 := by
    rw [Nat.shiftLeft_eq, Nat.one_mul]
    exact Nat.pow_lt_pow_right (by decide) (by omega)
  refine ⟨?_, ?_, ?_, ?_, by omega, hlt, ?_⟩
  · rw [builtin_clz_nonzero clz0 size h0]; omega
  · rw [builtin_clz_nonzero clz0 size h0]; omega
  · rw [builtin_clz_nonzero clz0 size h0]; omega
  · rw [builtin_clz_nonzero clz0 size h0, size_to_order_eq clz0 size h0 h1]; omega
  · unfold shl_ulong
    exact Nat.mod_eq_of_lt hlt

theorem size_to_order_in_range_witness :
    0 < 4294967295 ∧ 4294967295 < 2 ^ 32 ∧
      (0 ≤ 31 - builtin_clz 0 4294967295 ∧ 31 - builtin_clz 0 4294967295 ≤ 31 ∧
      (31 - builtin_clz 0 4294967295) % 256 = 31 - builtin_clz 0 4294967295 ∧
      (size_to_order 0 4294967295 : Int) = 31 - builtin_clz 0 4294967295 ∧
      size_to_order 0 4294967295 < 32 ∧
      1 <<< size_to_order 0 4294967295 < 2 ^ 32 ∧
      shl_ulong 1 (size_to_order 0 4294967295) = 1 <<< size_to_order 0 4294967295) :=
  ⟨by decide, by decide, size_to_order_in_range 0 4294967295 (by decide) (by decide)⟩

/-- C5: for every two values `a` and `b` of one totally ordered type,
`MIN(a, b)` returns the smaller of the two: it is `a` when `a < b` and `b`
otherwise, so it is at most `a`, at most `b`, and equal to one of them. -/
theorem MIN_returns_smaller {α : Type} [LinearOrder α] (a b : α) :
    ((a < b ∧ MIN a b = a) ∨ (¬ a < b ∧ MIN a b = b)) ∧
      MIN a b ≤ a ∧ MIN a b ≤ b ∧ (MIN a b = a ∨ MIN a b = b) ∧ MIN a b = min a b := by
  unfold MIN
  by_cases h : a < b
  · rw [if_pos h]
    exact ⟨Or.inl ⟨h, rfl⟩, le_refl a, le_of_lt h, Or.inl rfl, (min_eq_left (le_of_lt h)).symm⟩
  · rw [if_neg h]
    have hba : b ≤ a := not_lt.1 h
    exact ⟨Or.inr ⟨h, rfl⟩, hba, le_refl b, Or.inr rfl, (min_eq_right hba).symm⟩

/-- C7, at the invocation `CALL_BEFORE_RESET(shutdown)`: the declared pointer
is initialised with `shutdown`, but its type is taken from the identifier
`init`, not from the argument; in a scope where `shutdown` is a
`void (void)` and `init` an `int (int)` the pointee type is `int (int)`. -/
theorem CALL_BEFORE_RESET_takes_type_of_init :
    declare CALL_BEFORE_RESET "shutdown" =
        some ⟨".fini_array", "used", "init", "shutdown_finalizer_p", "shutdown"⟩ ∧
      (declare CALL_BEFORE_RESET "shutdown").map PtrDecl.typeof_operand ≠ some "shutdown" ∧
      (declare CALL_BEFORE_RESET "shutdown").bind (PtrDecl.pointee scope_example) =
        some "int (int)" ∧
      scope_example "shutdown" = some "void (void)" ∧
      (declare CALL_BEFORE_RESET "shutdown").bind (PtrDecl.pointee scope_example) ≠
        scope_example "shutdown" := by
  rw [declare_CALL_BEFORE_RESET]
  simp [PtrDecl.pointee, scope_example]

/-- C8: for every function identifier `f`, the pointer declared by
`CALL_ON_PREINIT(f)`, `CALL_ON_INIT(f)`, `CALL_BEFORE_RESET(f)` and
`DEFINE_TASK(f)` is placed in the section named exactly `.preinit_array`,
`.init_array`, `.fini_array` and `.task_array` respectively, and in all four
cases carries the `used` attribute. -/
theorem registration_section_and_used (f : String) :
    ((declare CALL_ON_PREINIT f).map PtrDecl.section_name = some ".preinit_array" ∧
      (declare CALL_ON_PREINIT f).map PtrDecl.used = some true) ∧
    ((declare CALL_ON_INIT f).map PtrDecl.section_name = some ".init_array" ∧
      (declare CALL_ON_INIT f).map PtrDecl.used = some true) ∧
    ((declare CALL_BEFORE_RESET f).map PtrDecl.section_name = some ".fini_array" ∧
      (declare CALL_BEFORE_RESET f).map PtrDecl.used = some true) ∧
    ((declare DEFINE_TASK f).map PtrDecl.section_name = some ".task_array" ∧
      (declare DEFINE_TASK f).map PtrDecl.used = some true) := by
  rw [declare_CALL_ON_PREINIT, declare_CALL_ON_INIT, declare_CALL_BEFORE_RESET,
    declare_DEFINE_TASK]
  simp [PtrDecl.used]

end Toolchain
